import Mathlib

/-!
Verification of the F1 season-data aggregator (f1capstone/f1):
the paginated collection loader, the TTL memoization cache, the HTTP client
wrapper, and the mechanical-DNF status classifier, embedded shallowly from
`f1/views.py` and `f1/services.py`.

Python strings are modelled as lists of Unicode code points (`List Nat`);
`str.strip()` / `str.lower()` are modelled on the ASCII range, which covers
every keyword the classifier compares against.
-/

namespace F1

/-- Code point is ASCII whitespace (the characters Python's `str.strip()`
removes in the ASCII range: space, tab, LF, VT, FF, CR). -/
def isSpaceCp (n : Nat) : Bool :=
  decide (n = 32 ∨ n = 9 ∨ n = 10 ∨ n = 11 ∨ n = 12 ∨ n = 13)

/-- ASCII lowercasing of one code point, as `str.lower()` does on ASCII. -/
def lowerCp (n : Nat) : Nat :=
  if 65 ≤ n ∧ n ≤ 90 then n + 32 else n

/-- `str.lower()` on a modelled string. -/
def pyLower (s : List Nat) : List Nat :=
  s.map lowerCp

/-- Strip leading whitespace (left part of `str.strip()`). -/
def lstrip (s : List Nat) : List Nat :=
  s.dropWhile isSpaceCp

/-- Strip trailing whitespace (right part of `str.strip()`). -/
def rstrip (s : List Nat) : List Nat :=
  (s.reverse.dropWhile isSpaceCp).reverse

/-- `str.strip()` on a modelled string. -/
def pyStrip (s : List Nat) : List Nat :=
  rstrip (lstrip s)

/-- Convert a Lean string literal to its list of code points, for writing
concrete Python-string values. -/
def chars (s : String) : List Nat :=
  s.data.map Char.toNat

/-- `needle` occurs at the start of `hay`. -/
def leadsWith : List Nat → List Nat → Bool
  | [], _ => true
  | _ :: _, [] => false
  | a :: as, b :: bs => decide (a = b) && leadsWith as bs

/-- Python's substring test `needle in hay` (contiguous occurrence). -/
def containsSub (hay needle : List Nat) : Bool :=
  match hay with
  | [] => leadsWith needle []
  | _ :: t => leadsWith needle hay || containsSub t needle

/-- The `_NON_MECH_TERMS` set from `f1/views.py`. -/
def NON_MECH_TERMS : List (List Nat) :=
  [chars "accident", chars "collision", chars "spin", chars "crash",
   chars "contact", chars "disqualified", chars "excluded", chars "black flag",
   chars "illegal", chars "finished", chars "lap", chars "laps",
   chars "time penalty", chars "did not qualify", chars "not classified",
   chars "injury", chars "illness", chars "withdrew"]

/-- The `_MECH_TERMS` set from `f1/views.py`. -/
def MECH_TERMS : List (List Nat) :=
  [chars "retired", chars "mechanical", chars "engine", chars "power unit",
   chars "gearbox", chars "hydraul", chars "electrical", chars "suspension",
   chars "brake", chars "brakes", chars "clutch", chars "driveshaft",
   chars "exhaust", chars "fuel", chars "oil", chars "overheating",
   chars "steering", chars "battery", chars "radiator", chars "turbo",
   chars "ers", chars "ignition", chars "water pressure", chars "throttle",
   chars "wheel", chars "puncture", chars "tyre", chars "cooling"]

/-- Body of `_is_mechanical_dnf_from_status` after both inputs have been
stripped and lowercased. -/
def mechCore (s ptxt : List Nat) : Bool :=
  if containsSub s (chars "finished") || containsSub s (chars "lap")
      || containsSub s (chars "disqualified") || containsSub s (chars "excluded") then
    false
  else if NON_MECH_TERMS.any (fun t => containsSub s t) then
    false
  else if ptxt = chars "r" then
    true
  else if MECH_TERMS.any (fun t => containsSub s t) then
    true
  else
    false

/-- `_is_mechanical_dnf_from_status(status, position_text)` from `f1/views.py`.
`none` models Python `None`; `(x or "")` maps both `None` and `""` to `""`. -/
def is_mechanical_dnf_from_status (status : List Nat) (positionText : Option (List Nat)) : Bool :=
  mechCore (pyLower (pyStrip status)) (pyLower (pyStrip (positionText.getD [])))

/-- The mechanical-cause keyword list exactly as the specification document
writes it (spec section 4.3, condition 3): for comparison against the
code's `MECH_TERMS`. -/
def SPEC_MECH_KEYWORDS : List (List Nat) :=
  [chars "engine", chars "gearbox", chars "hydraulics", chars "electrical",
   chars "suspension", chars "brake", chars "clutch", chars "driveshaft",
   chars "exhaust", chars "fuel", chars "oil", chars "overheating",
   chars "steering", chars "battery", chars "radiator", chars "turbo",
   chars "ers", chars "ignition", chars "water pressure", chars "throttle",
   chars "wheel", chars "puncture", chars "tyre", chars "cooling"]

/-- The explicit non-mechanical-cause list exactly as the specification
document writes it (spec section 4.3, condition 2). -/
def SPEC_NON_MECH_CAUSES : List (List Nat) :=
  [chars "accident", chars "collision", chars "spin", chars "crash",
   chars "contact", chars "illegal", chars "injury", chars "withdrew",
   chars "not classified", chars "time penalty", chars "did not qualify"]

/-- The specification's stated classification condition, following the spec's
words: no finish/lap/DSQ marker, no explicit non-mechanical cause, and either
position-text "R" or a spec-listed mechanical keyword in the status. -/
def specMechClaimCond (status : List Nat) (positionText : Option (List Nat)) : Bool :=
  let s := pyLower (pyStrip status)
  let ptxt := pyLower (pyStrip (positionText.getD []))
  (!(containsSub s (chars "finished") || containsSub s (chars "lap")
      || containsSub s (chars "disqualified") || containsSub s (chars "excluded")))
  && (!(SPEC_NON_MECH_CAUSES.any (fun t => containsSub s t)))
  && (decide (ptxt = chars "r") || SPEC_MECH_KEYWORDS.any (fun t => containsSub s t))

/-! ## HTTP client wrapper (`JolpiClient.get_url`, `f1/services.py`) -/

/-- The `MRData` envelope of one upstream page, with the fields the loader
reads: `total`, the echoed `limit` and `offset` (absent in the sentinel
payload), and the typed sub-collection (`RaceTable.Races` /
`DriverTable.Drivers`) as a list of opaque items. -/
structure MRData (ι : Type) where
  total : Nat
  limit : Option Nat
  offset : Option Nat
  items : List ι
deriving Repr, DecidableEq

/-- The sentinel empty payload `\x7b"MRData": \x7b"total": 0\x7d\x7d` that
`get_url` returns on any failure. -/
def sentinelPayload {ι : Type} : MRData ι :=
  ⟨0, none, none, []⟩

/-- Outcome of one HTTP attempt inside `get_url`: a response with a status
code and parsed body, a network-level failure (timeout / connect / read
error), any other request error or unexpected exception, or a response whose
body fails JSON parsing. -/
inductive Transport (ι : Type) where
  | ok (status : Nat) (body : MRData ι)
  | netErr
  | reqErr
  | badJson (status : Nat)
deriving Repr

/-- The `while attempt <= self.retries` loop of `JolpiClient.get_url`.
`fuel` starts at `retries + 1` so running out of fuel is the fall-through
`return` after the loop. `Except.error` would model an exception escaping to
the caller; every branch of the code catches, so none is ever produced. -/
def getUrlRun {ι : Type} (retryStatuses : List Nat) (retries : Nat)
    (tr : Nat → Transport ι) : Nat → Nat → Except Unit (MRData ι)
  | 0, _ => Except.ok sentinelPayload
  | fuel + 1, attempt =>
    match tr attempt with
    | Transport.netErr => Except.ok sentinelPayload
    | Transport.reqErr => Except.ok sentinelPayload
    | Transport.ok s body =>
      if s ∈ retryStatuses ∧ attempt < retries then
        getUrlRun retryStatuses retries tr fuel (attempt + 1)
      else if 400 ≤ s then
        if s ∈ retryStatuses ∧ attempt < retries then
          getUrlRun retryStatuses retries tr fuel (attempt + 1)
        else Except.ok sentinelPayload
      else Except.ok body
    | Transport.badJson s =>
      if s ∈ retryStatuses ∧ attempt < retries then
        getUrlRun retryStatuses retries tr fuel (attempt + 1)
      else if 400 ≤ s then
        if s ∈ retryStatuses ∧ attempt < retries then
          getUrlRun retryStatuses retries tr fuel (attempt + 1)
        else Except.ok sentinelPayload
      else Except.ok sentinelPayload

/-- `JolpiClient.get_url`: attempts indexed from 0, at most `retries + 1`. -/
def get_url {ι : Type} (retryStatuses : List Nat) (retries : Nat)
    (tr : Nat → Transport ι) : Except Unit (MRData ι) :=
  getUrlRun retryStatuses retries tr (retries + 1) 0

/-- The retry statuses of a default-constructed `JolpiClient()` (as used by
the views). -/
def defaultRetryStatuses : List Nat := [502, 503, 504]

/-! ## Paginated season loader (`_load_year_collection`, `f1/views.py`) -/

/-- The `for attempt in range(3)` page-fetch wrapper inside
`_load_year_collection`, instrumented with the number of attempts performed
and the backoff sleeps issued (in tenths of a second, `6 * (attempt + 1)`
models `0.6 * (attempt + 1)` seconds). Running out of iterations is the
`for`-`else` branch, whose bare `raise` is modelled as `Except.error`. -/
def retryLoopGo {α : Type} (call : Nat → Except Unit α) :
    Nat → Nat → List Nat → Except Unit α × Nat × List Nat
  | 0, attempts, sleeps => (Except.error (), attempts, sleeps)
  | n + 1, attempt, sleeps =>
    match call attempt with
    | Except.ok a => (Except.ok a, attempt + 1, sleeps)
    | Except.error _ => retryLoopGo call n (attempt + 1) (sleeps ++ [6 * (attempt + 1)])

/-- One page fetch of the loader: up to 3 attempts around
`client.get_url(url)` on a default-constructed client (`retries = 0`).
`trs k` is the transport behaviour seen by attempt `k`. -/
def loaderFetchPage {ι : Type} (trs : Nat → Nat → Transport ι) :
    Except Unit (MRData ι) × Nat × List Nat :=
  retryLoopGo (fun k => get_url defaultRetryStatuses 0 (trs k)) 3 0 []

/-- `int(mr.get("limit") or per_page)`: a missing or zero echoed limit falls
back to the requested page size (Python falsiness of `0`/`None`). -/
def effLimit {ι : Type} (page : MRData ι) (perPage : Nat) : Nat :=
  match page.limit with
  | none => perPage
  | some l => if l = 0 then perPage else l

/-- `int(mr.get("offset") or offset)`: a missing or zero echoed offset falls
back to the requested offset. -/
def effOffset {ι : Type} (page : MRData ι) (reqOffset : Nat) : Nat :=
  match page.offset with
  | none => reqOffset
  | some o => if o = 0 then reqOffset else o

/-- The resource-keyed merge of a later page into the accumulated payload
(the `if/elif` chain in `_load_year_collection`): the four recognised
list-valued resources concatenate their typed sub-collections, while
`driverstandings` and any unrecognised resource replace the payload
wholesale. -/
def mergeStep {ι : Type} (resource : String) (m page : MRData ι) : MRData ι :=
  if resource = "results" then { m with items := m.items ++ page.items }
  else if resource = "sprint" then { m with items := m.items ++ page.items }
  else if resource = "drivers" then { m with items := m.items ++ page.items }
  else if resource = "races" then { m with items := m.items ++ page.items }
  else if resource = "driverstandings" then page
  else page

/-- `merged = page` on the first page, the resource-keyed `mergeStep` on
later pages (the `if merged is None` branch of the loop body). -/
def mergeInto {ι : Type} (resource : String) (merged : Option (MRData ι))
    (page : MRData ι) : MRData ι :=
  match merged with
  | none => page
  | some m => mergeStep resource m page

/-- `offset = off + limit`: the next offset the loop will request. -/
def nextOff {ι : Type} (page : MRData ι) (reqOffset perPage : Nat) : Nat :=
  effOffset page reqOffset + effLimit page perPage

/-- The `while True` pagination loop of `_load_year_collection`, over an
upstream `up` mapping a requested offset to the page returned for it.
`fuel` bounds the number of iterations the model will unfold: `none` means
the loop did not terminate within `fuel` pages. On success the result
carries the merged payload and the number of pages fetched. -/
def loadLoop {ι : Type} (resource : String) (perPage : Nat) (up : Nat → MRData ι) :
    Nat → Nat → Option (MRData ι) → Option (MRData ι × Nat)
  | 0, _, _ => none
  | fuel + 1, reqOffset, merged =>
    if (up reqOffset).total ≤ nextOff (up reqOffset) reqOffset perPage
        ∨ (up reqOffset).total = 0 then
      some (mergeInto resource merged (up reqOffset), 1)
    else
      (loadLoop resource perPage up fuel (nextOff (up reqOffset) reqOffset perPage)
          (some (mergeInto resource merged (up reqOffset)))).map
        (fun r => (r.1, r.2 + 1))

/-- `_load_year_collection`'s fetch-and-merge core (the cache-miss path),
starting at offset 0 with no accumulated payload. -/
def load_year_collection {ι : Type} (resource : String) (perPage : Nat)
    (up : Nat → MRData ι) (fuel : Nat) : Option (MRData ι × Nat) :=
  loadLoop resource perPage up fuel 0 none

/-- An upstream free of errors: it holds a fixed item list, reports its
length as `total`, echoes the requested offset and limit, and serves the
corresponding slice of the list. -/
def honestUp {ι : Type} (allItems : List ι) (perPage : Nat) : Nat → MRData ι :=
  fun o => ⟨allItems.length, some perPage, some o, (allItems.drop o).take perPage⟩

/-- An upstream whose responses never change: it reports `total = 5` but
echoes `offset = 1, limit = 1` on every request. -/
def upStuck : Nat → MRData Nat :=
  fun _ => ⟨5, some 1, some 1, [7]⟩

/-! ## TTL memoization cache (`_cache_get` / `_cache_set`, `f1/views.py`) -/

/-- `_CACHE_TTL = timedelta(minutes=5)`, in seconds; timestamps are modelled
as seconds since an epoch. -/
def CACHE_TTL : Nat := 300

/-- One record of `_RESULTS_CACHE`: insertion timestamp and stored payload. -/
structure CacheRec (ι : Type) where
  ts : Nat
  data : MRData ι

/-- `_cache_get(key)`: a missing record or one older than the TTL is a miss.
`now - ts` on `Nat` truncates at zero, matching a non-positive `timedelta`
never exceeding the TTL. -/
def cache_get {ι : Type} (cache : String → Option (CacheRec ι)) (now : Nat)
    (key : String) : Option (MRData ι) :=
  match cache key with
  | none => none
  | some r => if CACHE_TTL < now - r.ts then none else some r.data

/-- `_cache_set(key, data)`: overwrite the record wholesale with the new
payload and the current time. -/
def cache_set {ι : Type} (cache : String → Option (CacheRec ι)) (now : Nat)
    (key : String) (d : MRData ι) : String → Option (CacheRec ι) :=
  fun k => if k = key then some ⟨now, d⟩ else cache k

/-- The cache key `f"\x7bresource\x7d:\x7byear\x7d:\x7bper_page\x7d"`. -/
def cacheKey (resource : String) (year perPage : Nat) : String :=
  resource ++ ":" ++ toString year ++ ":" ++ toString perPage

/-- `_load_year_collection` including its cache fast path: returns the
payload, the cache state afterwards, and whether an upstream load was
performed. A fresh cached payload is returned as-is (merged payloads always
carry the `MRData` key, so they are truthy); otherwise the pagination loop
runs and its result is stored with the current timestamp. -/
def load_year_collection_cached {ι : Type} (resource : String) (year perPage : Nat)
    (up : Nat → MRData ι) (fuel : Nat) (cache : String → Option (CacheRec ι))
    (now : Nat) :
    Option (MRData ι) × (String → Option (CacheRec ι)) × Bool :=
  let key := cacheKey resource year perPage
  match cache_get cache now key with
  | some d => (some d, cache, false)
  | none =>
    match loadLoop resource perPage up fuel 0 none with
    | none => (none, cache, true)
    | some (m, _) => (some m, cache_set cache now key m, true)

/-! ## Completed-results join and derived statistics
(`_gp_results_for_driver_completed` and `driver_detail`, `f1/views.py`) -/

/-- One race of the season calendar as `_season_races_ordered` produces it:
round number and the ISO date parsed by `_parse_iso` (`none` when parsing
fails); dates are modelled as day numbers. -/
structure CalRace where
  round : Nat
  date : Option Nat
deriving Repr, DecidableEq

/-- One per-driver result row of a race, with the fields `driver_detail`
reads; upstream numeric strings are parsed at the boundary, `points` may be
fractional. -/
structure RaceResultRow where
  driverId : List Nat
  position : Option Nat
  positionText : Option (List Nat)
  grid : Option Nat
  points : Option Rat
  status : Option (List Nat)
deriving Repr, DecidableEq

/-- One race of the season-wide results payload: its round and result rows. -/
structure ResultRace where
  round : Nat
  results : List RaceResultRow
deriving Repr, DecidableEq

/-- The dict comprehension `\x7bint(r.get("round")): r for r in result_races\x7d`:
the last entry for a round wins. -/
def byRound (rs : List ResultRace) (n : Nat) : Option ResultRace :=
  match rs with
  | [] => none
  | r :: rest =>
    match byRound rest n with
    | some x => some x
    | none => if r.round = n then some r else none

/-- One item of the list `_gp_results_for_driver_completed` builds. -/
structure GpItem where
  round : Nat
  date : Nat
  position : Option Nat
  positionText : Option (List Nat)
  grid : Option Nat
  points : Option Rat
  status : Option (List Nat)
deriving Repr, DecidableEq

/-- The join loop of `_gp_results_for_driver_completed`: walk the
round-ordered calendar, break at the first race with a missing or future
date, skip rounds without a result or without the driver's row, and collect
the driver's row otherwise. -/
def gpItems (today : Nat) (bR : Nat → Option ResultRace) (did : List Nat) :
    List CalRace → List GpItem
  | [] => []
  | r :: rest =>
    match r.date with
    | none => []
    | some d =>
      if today < d then []
      else
        match bR r.round with
        | none => gpItems today bR did rest
        | some rr =>
          match rr.results.find? (fun res => pyLower res.driverId == pyLower did) with
          | none => gpItems today bR did rest
          | some found =>
            { round := r.round, date := d, position := found.position,
              positionText := found.positionText, grid := found.grid,
              points := found.points, status := found.status }
              :: gpItems today bR did rest

/-- `_gp_results_for_driver_completed(year, driver_id)`, with the calendar
and the season-wide results payload as inputs. -/
def gp_results_for_driver_completed (today : Nat) (races : List CalRace)
    (resultRaces : List ResultRace) (did : List Nat) : List GpItem :=
  gpItems today (byRound resultRaces) did races

/-- A calendar race counts as completed when its date parsed and is not in
the future. -/
def raceCompleted (today : Nat) (r : CalRace) : Bool :=
  match r.date with
  | some d => decide (d ≤ today)
  | none => false

/-- The per-driver season aggregates `driver_detail` derives from the
completed-race items. -/
structure DriverStats where
  entered : Nat
  points : Rat
  wins : Nat
  podiums : Nat
  poles : Nat
  top10 : Nat
  mech_dnfs : Nat
deriving Repr, DecidableEq

/-- The statistics block of `driver_detail` (views.py lines 624-634). -/
def driverStatsOf (items : List GpItem) : DriverStats :=
  { entered := items.length
    points := (items.map (fun r => r.points.getD 0)).sum
    wins := items.countP (fun r => r.position == some 1)
    podiums := items.countP (fun r =>
      match r.position with
      | some p => decide (p ≤ 3)
      | none => false)
    poles := items.countP (fun r => r.grid == some 1)
    top10 := items.countP (fun r =>
      match r.position with
      | some p => decide (p ≤ 10)
      | none => false)
    mech_dnfs := items.countP (fun r =>
      is_mechanical_dnf_from_status (r.status.getD []) r.positionText) }

/-! ## Normalization lemmas for the modelled string operations -/

theorem lowerCp_idem (n : Nat) : lowerCp (lowerCp n) = lowerCp n := by
  unfold lowerCp
  split_ifs <;> omega

theorem isSpaceCp_lowerCp (n : Nat) : isSpaceCp (lowerCp n) = isSpaceCp n := by
  unfold lowerCp isSpaceCp
  split_ifs with h
  · rw [decide_eq_decide]
    constructor <;> intro h' <;> omega
  · rfl

theorem dropWhile_map_lowerCp (l : List Nat) :
    (l.map lowerCp).dropWhile isSpaceCp = (l.dropWhile isSpaceCp).map lowerCp := by
  induction l with
  | nil => rfl
  | cons a t ih =>
    simp only [List.map_cons, List.dropWhile_cons, isSpaceCp_lowerCp]
    cases h : isSpaceCp a with
    | true => simpa [h] using ih
    | false => simp [h]

theorem pyStrip_pyLower (l : List Nat) : pyStrip (pyLower l) = pyLower (pyStrip l) := by
  unfold pyStrip pyLower lstrip rstrip
  simp only [dropWhile_map_lowerCp, ← List.map_reverse]

theorem dropWhile_idem (p : Nat → Bool) (l : List Nat) :
    (l.dropWhile p).dropWhile p = l.dropWhile p := by
  induction l with
  | nil => rfl
  | cons a t ih =>
    cases h : p a with
    | true => simp [List.dropWhile_cons, h, ih]
    | false => simp [List.dropWhile_cons, h]

theorem rstrip_idem (l : List Nat) : rstrip (rstrip l) = rstrip l := by
  unfold rstrip
  rw [List.reverse_reverse, dropWhile_idem]

theorem lstrip_rstrip_of_lstrip (l : List Nat) (h : lstrip l = l) :
    lstrip (rstrip l) = rstrip l := by
  have hpre : rstrip l <+: l := by
    unfold rstrip
    conv_rhs => rw [← List.reverse_reverse l]
    exact List.reverse_prefix.mpr (List.dropWhile_suffix isSpaceCp)
  cases hr : rstrip l with
  | nil => rfl
  | cons a as =>
    rw [hr] at hpre
    obtain ⟨t, ht⟩ := hpre
    have hpa : isSpaceCp a = false := by
      cases hc : isSpaceCp a with
      | false => rfl
      | true =>
        exfalso
        unfold lstrip at h
        rw [← ht, List.cons_append, List.dropWhile_cons_of_pos hc] at h
        have hlen := congrArg List.length h
        have hdw := ((List.dropWhile_suffix isSpaceCp
          (l := as ++ t)).length_le : (List.dropWhile isSpaceCp (as ++ t)).length ≤ _)
        simp only [List.length_cons] at hlen
        omega
    unfold lstrip
    rw [List.dropWhile_cons_of_neg (by simp [hpa])]

theorem pyStrip_idem (l : List Nat) : pyStrip (pyStrip l) = pyStrip l := by
  unfold pyStrip
  rw [lstrip_rstrip_of_lstrip (lstrip l) (dropWhile_idem _ _), rstrip_idem]

theorem pyLower_idem (l : List Nat) : pyLower (pyLower l) = pyLower l := by
  unfold pyLower
  rw [List.map_map]
  exact List.map_congr_left (fun a _ => lowerCp_idem a)

theorem norm_idem (l : List Nat) :
    pyLower (pyStrip (pyLower (pyStrip l))) = pyLower (pyStrip l) := by
  rw [pyStrip_pyLower, pyLower_idem, pyStrip_idem]

/-! ## Classifier lemmas -/

theorem finish_markers_are_nonmech (s : List Nat)
    (h : (containsSub s (chars "finished") || containsSub s (chars "lap")
        || containsSub s (chars "disqualified") || containsSub s (chars "excluded")) = true) :
    NON_MECH_TERMS.any (fun t => containsSub s t) = true := by
  simp only [Bool.or_eq_true] at h
  simp only [List.any_eq_true]
  rcases h with ((h | h) | h) | h
  · exact ⟨chars "finished", by decide, h⟩
  · exact ⟨chars "lap", by decide, h⟩
  · exact ⟨chars "disqualified", by decide, h⟩
  · exact ⟨chars "excluded", by decide, h⟩

theorem mechCore_eq_true_iff (s p : List Nat) :
    mechCore s p = true ↔
      (NON_MECH_TERMS.any (fun t => containsSub s t) = false
       ∧ (p = chars "r" ∨ MECH_TERMS.any (fun t => containsSub s t) = true)) := by
  cases h1 : (containsSub s (chars "finished") || containsSub s (chars "lap")
      || containsSub s (chars "disqualified") || containsSub s (chars "excluded")) with
  | true =>
    have h2 := finish_markers_are_nonmech s h1
    simp [mechCore, h1, h2]
  | false =>
    cases h2 : NON_MECH_TERMS.any (fun t => containsSub s t) with
    | true => simp [mechCore, h1, h2]
    | false =>
      by_cases h3 : p = chars "r"
      · simp [mechCore, h1, h2, h3]
      · cases h4 : MECH_TERMS.any (fun t => containsSub s t) with
        | true => simp [mechCore, h1, h2, h3, h4]
        | false => simp [mechCore, h1, h2, h3, h4]

/-! ## Claim C2 -/

/-- Claim C2, counterexample: on status `"Retired"` with no position-text the
code classifies a mechanical DNF (the code's `MECH_TERMS` contains
`"retired"`), while the spec's stated condition — whose keyword list lacks
`"retired"` — does not, so the claimed iff fails at this input. -/
theorem mech_dnf_spec_condition_cex :
    is_mechanical_dnf_from_status (chars "Retired") none = true
      ∧ specMechClaimCond (chars "Retired") none = false := by
  exact ⟨rfl, rfl⟩

/-- Claim C2 (amended): `_is_mechanical_dnf_from_status` returns true iff the
normalized status contains no term of the code's `_NON_MECH_TERMS` list
(which includes the finish/lap/DSQ markers of condition 1, plus
"black flag" and "illness"), and either the normalized position-text is
`"r"` or the normalized status contains a term of the code's `_MECH_TERMS`
list (the spec's keyword list extended with "retired", "mechanical",
"power unit", "brakes", and with "hydraul" as a stem instead of
"hydraulics"). -/
theorem mech_dnf_characterization (status : List Nat) (ptxt : Option (List Nat)) :
    is_mechanical_dnf_from_status status ptxt = true ↔
      ((∀ t ∈ NON_MECH_TERMS, containsSub (pyLower (pyStrip status)) t = false)
       ∧ (pyLower (pyStrip (ptxt.getD [])) = chars "r"
          ∨ ∃ t ∈ MECH_TERMS, containsSub (pyLower (pyStrip status)) t = true)) := by
  unfold is_mechanical_dnf_from_status
  rw [mechCore_eq_true_iff]
  simp only [List.any_eq_true, List.any_eq_false, Bool.not_eq_true]

/-! ## Claim C3 -/

/-- Claim C3: the mechanical-DNF classifier satisfies the five spec test
vectors: Accident/R is not mechanical, Retired/R is, Finished is not,
Gearbox/R is, Disqualified is not. -/
theorem mech_dnf_spec_vectors :
    is_mechanical_dnf_from_status (chars "Accident") (some (chars "R")) = false
    ∧ is_mechanical_dnf_from_status (chars "Retired") (some (chars "R")) = true
    ∧ is_mechanical_dnf_from_status (chars "Finished") none = false
    ∧ is_mechanical_dnf_from_status (chars "Gearbox") (some (chars "R")) = true
    ∧ is_mechanical_dnf_from_status (chars "Disqualified") none = false := by
  exact ⟨rfl, rfl, rfl, rfl, rfl⟩

/-! ## Claim C10 -/

/-- Claim C10: the classifier is invariant under input normalization — its
result on any status and position-text (including a missing one) equals its
result on the stripped-and-lowercased versions of both inputs. -/
theorem mech_dnf_normalization_invariant (status : List Nat) (ptxt : Option (List Nat)) :
    is_mechanical_dnf_from_status status ptxt
      = is_mechanical_dnf_from_status (pyLower (pyStrip status))
          (ptxt.map (fun p => pyLower (pyStrip p))) := by
  cases ptxt with
  | none =>
    unfold is_mechanical_dnf_from_status
    rw [norm_idem]
    rfl
  | some p =>
    unfold is_mechanical_dnf_from_status
    simp only [Option.map_some', Option.getD_some]
    rw [norm_idem, norm_idem]

/-! ## HTTP client lemmas -/

theorem getUrlRun_isOk {ι : Type} (rs : List Nat) (retries : Nat)
    (tr : Nat → Transport ι) :
    ∀ fuel attempt, ∃ b, getUrlRun rs retries tr fuel attempt = Except.ok b := by
  intro fuel
  induction fuel with
  | zero => intro attempt; exact ⟨_, rfl⟩
  | succ n ih =>
    intro attempt
    unfold getUrlRun
    cases tr attempt with
    | netErr => exact ⟨_, rfl⟩
    | reqErr => exact ⟨_, rfl⟩
    | ok s body =>
      dsimp only
      split_ifs
      · exact ih _
      · exact ⟨_, rfl⟩
      · exact ⟨_, rfl⟩
    | badJson s =>
      dsimp only
      split_ifs
      · exact ih _
      · exact ⟨_, rfl⟩
      · exact ⟨_, rfl⟩

theorem get_url_isOk {ι : Type} (rs : List Nat) (retries : Nat)
    (tr : Nat → Transport ι) : ∃ b, get_url rs retries tr = Except.ok b :=
  getUrlRun_isOk rs retries tr (retries + 1) 0

theorem getUrlRun_exhaust {ι : Type} (rs : List Nat) (retries : Nat)
    (tr : Nat → Transport ι)
    (hall : ∀ a, a ≤ retries → ∃ s body, tr a = Transport.ok s body ∧ s ∈ rs ∧ 400 ≤ s) :
    ∀ fuel attempt, fuel + attempt = retries + 1 →
      getUrlRun rs retries tr fuel attempt = Except.ok sentinelPayload := by
  intro fuel
  induction fuel with
  | zero => intro attempt _; rfl
  | succ n ih =>
    intro attempt hfa
    obtain ⟨s, body, htr, hmem, hs⟩ := hall attempt (by omega)
    unfold getUrlRun
    rw [htr]
    dsimp only
    by_cases hlt : attempt < retries
    · rw [if_pos ⟨hmem, hlt⟩]
      exact ih (attempt + 1) (by omega)
    · rw [if_neg (fun hc => hlt hc.2), if_pos hs, if_neg (fun hc => hlt hc.2)]

theorem retryLoopGo_first_ok {α : Type} (call : Nat → Except Unit α) (b : α)
    (h : call 0 = Except.ok b) (n : Nat) :
    retryLoopGo call (n + 1) 0 [] = (Except.ok b, 1, []) := by
  unfold retryLoopGo
  rw [h]

/-! ## Claim C4 -/

/-- Claim C4: `get_url` never propagates an exception to its caller — its
result is always `Except.ok` — and on an immediate network failure, on a
non-retryable HTTP error status, and on exhausting all retries against
retryable error statuses it returns the sentinel empty payload. -/
theorem get_url_never_raises {ι : Type} (retryStatuses : List Nat) (retries : Nat)
    (tr : Nat → Transport ι) :
    (∃ b, get_url retryStatuses retries tr = Except.ok b)
    ∧ (tr 0 = Transport.netErr →
        get_url retryStatuses retries tr = Except.ok sentinelPayload)
    ∧ (∀ s body, tr 0 = Transport.ok s body → 400 ≤ s → s ∉ retryStatuses →
        get_url retryStatuses retries tr = Except.ok sentinelPayload)
    ∧ ((∀ a, a ≤ retries →
          ∃ s body, tr a = Transport.ok s body ∧ s ∈ retryStatuses ∧ 400 ≤ s) →
        get_url retryStatuses retries tr = Except.ok sentinelPayload) := by
  refine ⟨get_url_isOk retryStatuses retries tr, ?_, ?_, ?_⟩
  · intro h
    unfold get_url getUrlRun
    rw [h]
  · intro s body h h400 hnot
    unfold get_url getUrlRun
    rw [h]
    dsimp only
    rw [if_neg (fun hc => hnot hc.1), if_pos h400, if_neg (fun hc => hnot hc.1)]
  · intro hall
    exact getUrlRun_exhaust retryStatuses retries tr hall (retries + 1) 0 (by omega)

/-- Claim C4, witness: a client with no configured retries whose single
attempt times out returns the sentinel payload. -/
theorem get_url_never_raises_witness :
    get_url (ι := Nat) defaultRetryStatuses 0 (fun _ => Transport.netErr)
      = Except.ok sentinelPayload :=
  (get_url_never_raises defaultRetryStatuses 0 (fun _ => Transport.netErr)).2.1 rfl

/-! ## Claim C5 -/

/-- Claim C5, counterexample: with a transport on which every attempt of
every page fetch fails (a permanent timeout), the loader's page fetch does
not raise after three backed-off attempts as claimed — it returns normally
with the sentinel payload after a single attempt and no backoff sleeps,
because `get_url` converts the transport failure into a sentinel page. -/
theorem loader_retry_claim_cex :
    loaderFetchPage (fun _ _ => Transport.netErr (ι := Nat))
        = (Except.ok sentinelPayload, 1, [])
    ∧ (loaderFetchPage (fun _ _ => Transport.netErr (ι := Nat))).1
        ≠ Except.error () :=
  ⟨rfl, fun h => Except.noConfusion h⟩

/-- Claim C5 (amended): the loader wraps each page fetch in a 3-attempt
retry loop with linear backoff, but the loop retries only when `get_url`
raises, and `get_url` never raises; so every page fetch completes on its
first attempt with no backoff sleeps, its page is whatever `get_url`
returned (the sentinel payload under transport failure), and the
fatal-exhaustion `raise` is unreachable. -/
theorem loader_retry_amended {ι : Type} (trs : Nat → Nat → Transport ι) :
    ∃ page, loaderFetchPage trs = (Except.ok page, 1, [])
      ∧ get_url defaultRetryStatuses 0 (trs 0) = Except.ok page := by
  obtain ⟨b, hb⟩ := get_url_isOk defaultRetryStatuses 0 (trs 0)
  refine ⟨b, ?_, hb⟩
  unfold loaderFetchPage
  rw [show (3 : Nat) = 2 + 1 from rfl]
  exact retryLoopGo_first_ok (fun k => get_url defaultRetryStatuses 0 (trs k)) b hb 2

/-! ## Loader lemmas -/

theorem effOffset_echo {ι : Type} (t : Nat) (l : Option Nat) (o : Nat) (it : List ι) :
    effOffset (⟨t, l, some o, it⟩ : MRData ι) o = o := by
  simp [effOffset]

theorem effLimit_echo {ι : Type} (t : Nat) (o : Option Nat) (pp : Nat) (it : List ι) :
    effLimit (⟨t, some pp, o, it⟩ : MRData ι) pp = pp := by
  simp [effLimit]

theorem mergeStep_concat {ι : Type} (resource : String) (m page : MRData ι)
    (h : resource = "results" ∨ resource = "sprint" ∨ resource = "drivers"
      ∨ resource = "races") :
    mergeStep resource m page = { m with items := m.items ++ page.items } := by
  rcases h with h | h | h | h <;> subst h <;> rfl

theorem mergeStep_replace {ι : Type} (resource : String) (m page : MRData ι)
    (h : resource = "driverstandings"
      ∨ (resource ≠ "results" ∧ resource ≠ "sprint" ∧ resource ≠ "drivers"
         ∧ resource ≠ "races" ∧ resource ≠ "driverstandings")) :
    mergeStep resource m page = page := by
  rcases h with h | ⟨h1, h2, h3, h4, h5⟩
  · subst h; rfl
  · simp [mergeStep, h1, h2, h3, h4, h5]

/-! ## Claim C9 -/

/-- Claim C9: the loader's merge of a later page into the accumulated
payload is resource-specific — for "results", "sprint", "drivers" and
"races" the page's typed sub-collection is appended by concatenation, while
for "driverstandings" and for any unrecognized resource name the page
replaces the accumulated payload wholesale. -/
theorem merge_strategy_by_resource {ι : Type} (resource : String) (m page : MRData ι) :
    ((resource = "results" ∨ resource = "sprint" ∨ resource = "drivers"
        ∨ resource = "races") →
      mergeStep resource m page = { m with items := m.items ++ page.items })
    ∧ ((resource = "driverstandings"
        ∨ (resource ≠ "results" ∧ resource ≠ "sprint" ∧ resource ≠ "drivers"
           ∧ resource ≠ "races" ∧ resource ≠ "driverstandings")) →
      mergeStep resource m page = page) :=
  ⟨mergeStep_concat resource m page, mergeStep_replace resource m page⟩

/-- Claim C9, witness: concatenation for "results", replacement for
"driverstandings", on concrete payloads. -/
theorem merge_strategy_witness :
    mergeStep (ι := Nat) "results" ⟨3, none, none, [1, 2]⟩ ⟨3, none, none, [3]⟩
        = ⟨3, none, none, [1, 2, 3]⟩
    ∧ mergeStep (ι := Nat) "driverstandings" ⟨3, none, none, [1, 2]⟩ ⟨3, none, none, [3]⟩
        = ⟨3, none, none, [3]⟩ :=
  ⟨(merge_strategy_by_resource "results" _ _).1 (Or.inl rfl),
   (merge_strategy_by_resource "driverstandings" _ _).2 (Or.inl rfl)⟩

/-! ## Honest-upstream pagination lemmas -/

theorem mergeInto_some {ι : Type} (resource : String) (m page : MRData ι) :
    mergeInto resource (some m) page = mergeStep resource m page := rfl

theorem loadLoop_concat_honest {ι : Type} (resource : String)
    (hres : resource = "results" ∨ resource = "sprint" ∨ resource = "drivers"
      ∨ resource = "races")
    (allItems : List ι) (perPage : Nat) (hpp : 0 < perPage) :
    ∀ fuel reqOffset m, allItems.length ≤ reqOffset + fuel →
      ∃ cnt, loadLoop resource perPage (honestUp allItems perPage) (fuel + 1) reqOffset (some m)
        = some ({ m with items := m.items ++ allItems.drop reqOffset }, cnt) := by
  intro fuel
  induction fuel with
  | zero =>
    intro r m hr
    refine ⟨1, ?_⟩
    have hcond : ((honestUp allItems perPage) r).total
        ≤ nextOff ((honestUp allItems perPage) r) r perPage
        ∨ ((honestUp allItems perPage) r).total = 0 := by
      simp only [honestUp, nextOff, effOffset_echo, effLimit_echo]
      omega
    have hitems : ((honestUp allItems perPage) r).items = allItems.drop r := by
      simp only [honestUp]
      rw [List.take_of_length_le]
      rw [List.length_drop]
      omega
    unfold loadLoop
    rw [if_pos hcond, mergeInto_some, mergeStep_concat resource m _ hres, hitems]
  | succ n ih =>
    intro r m hr
    by_cases hstop : allItems.length ≤ r + perPage
    · refine ⟨1, ?_⟩
      have hcond : ((honestUp allItems perPage) r).total
          ≤ nextOff ((honestUp allItems perPage) r) r perPage
          ∨ ((honestUp allItems perPage) r).total = 0 := by
        simp only [honestUp, nextOff, effOffset_echo, effLimit_echo]
        omega
      have hitems : ((honestUp allItems perPage) r).items = allItems.drop r := by
        simp only [honestUp]
        rw [List.take_of_length_le]
        rw [List.length_drop]
        omega
      unfold loadLoop
      rw [if_pos hcond, mergeInto_some, mergeStep_concat resource m _ hres, hitems]
    · have hcond : ¬ (((honestUp allItems perPage) r).total
          ≤ nextOff ((honestUp allItems perPage) r) r perPage
          ∨ ((honestUp allItems perPage) r).total = 0) := by
        simp only [honestUp, nextOff, effOffset_echo, effLimit_echo]
        omega
      obtain ⟨cnt, hrec⟩ :=
        ih (r + perPage) ({ m with items := m.items ++ (allItems.drop r).take perPage })
          (by omega)
      refine ⟨cnt + 1, ?_⟩
      have hnext : nextOff ((honestUp allItems perPage) r) r perPage = r + perPage := by
        simp only [honestUp, nextOff, effOffset_echo, effLimit_echo]
      have hmerge : mergeInto resource (some m) ((honestUp allItems perPage) r)
          = { m with items := m.items ++ (allItems.drop r).take perPage } := by
        rw [mergeInto_some, mergeStep_concat resource m _ hres]
        rfl
      unfold loadLoop
      rw [if_neg hcond, hnext, hmerge, hrec]
      simp only [Option.map_some']
      have hlist : (m.items ++ (allItems.drop r).take perPage) ++ allItems.drop (r + perPage)
          = m.items ++ allItems.drop r := by
        rw [List.append_assoc]
        congr 1
        rw [show allItems.drop (r + perPage) = (allItems.drop r).drop perPage by
              rw [List.drop_drop],
            List.take_append_drop]
      rw [hlist]

/-! ## Claim C1 -/

/-- Claim C1, counterexample: "driverstandings" is a valid loader resource
and the upstream below is error-free (it reports `total = 2`, echoes
offsets and limits, and serves slices of a fixed two-item list), yet with
page size 1 the loader's replace-wholesale merge keeps only the last page,
so the merged payload holds 1 item, not the upstream-reported total 2. -/
theorem loader_count_claim_cex :
    (load_year_collection (ι := Nat) "driverstandings" 1 (honestUp [10, 20] 1) 5).map
        (fun r => r.1.items.length) = some 1
    ∧ (honestUp ([10, 20] : List Nat) 1 0).total = 2 :=
  ⟨rfl, rfl⟩

/-- Claim C1 (amended): for the concatenating resources — "results",
"sprint", "drivers", "races" — with a positive page size and an error-free
upstream, the merged payload's accumulated sub-collection has exactly the
upstream-reported `total` many items; for "driverstandings" and unrecognized
resources only the final page is kept, so the count can fall short of
`total` when the collection spans several pages. -/
theorem loader_item_count_matches_total {ι : Type} (resource : String)
    (allItems : List ι) (perPage fuel : Nat)
    (hres : resource = "results" ∨ resource = "sprint" ∨ resource = "drivers"
      ∨ resource = "races")
    (hpp : 0 < perPage) (hfuel : allItems.length < fuel) :
    (load_year_collection resource perPage (honestUp allItems perPage) fuel).map
        (fun r => r.1.items.length) = some allItems.length := by
  obtain ⟨k, rfl⟩ : ∃ k, fuel = k + 1 := ⟨fuel - 1, by omega⟩
  unfold load_year_collection
  by_cases hstop : allItems.length ≤ perPage
  · have hcond : ((honestUp allItems perPage) 0).total
        ≤ nextOff ((honestUp allItems perPage) 0) 0 perPage
        ∨ ((honestUp allItems perPage) 0).total = 0 := by
      simp only [honestUp, nextOff, effOffset_echo, effLimit_echo]
      omega
    unfold loadLoop
    rw [if_pos hcond]
    simp only [Option.map_some', mergeInto, honestUp, List.drop_zero]
    rw [List.take_of_length_le hstop]
  · obtain ⟨k', rfl⟩ : ∃ k', k = k' + 1 := ⟨k - 1, by omega⟩
    have hcond : ¬ (((honestUp allItems perPage) 0).total
        ≤ nextOff ((honestUp allItems perPage) 0) 0 perPage
        ∨ ((honestUp allItems perPage) 0).total = 0) := by
      simp only [honestUp, nextOff, effOffset_echo, effLimit_echo]
      omega
    have hnext : nextOff ((honestUp allItems perPage) 0) 0 perPage = perPage := by
      simp only [honestUp, nextOff, effOffset_echo, effLimit_echo]
      omega
    obtain ⟨cnt, hrec⟩ := loadLoop_concat_honest resource hres allItems perPage hpp
      k' perPage ((honestUp allItems perPage) 0) (by omega)
    unfold loadLoop
    rw [if_neg hcond, hnext]
    have hminto : mergeInto resource none ((honestUp allItems perPage) 0)
        = (honestUp allItems perPage) 0 := rfl
    rw [hminto, hrec]
    simp only [Option.map_some', Option.map_map, honestUp, List.drop_zero,
      List.take_append_drop]

/-- Claim C1, witness for the amended statement: three items served in pages
of two for "results" merge to all three items. -/
theorem loader_item_count_witness :
    (load_year_collection (ι := Nat) "results" 2 (honestUp [10, 20, 30] 2) 4).map
        (fun r => r.1.items.length) = some 3 :=
  loader_item_count_matches_total "results" [10, 20, 30] 2 4 (Or.inl rfl)
    (by decide) (by decide)

/-! ## Claim C8 -/

theorem loadLoop_upStuck_none :
    ∀ fuel m, loadLoop "races" 200 upStuck fuel 2 (some m) = none := by
  intro fuel
  induction fuel with
  | zero => intro m; rfl
  | succ n ih =>
    intro m
    have step : loadLoop "races" 200 upStuck (n + 1) 2 (some m)
        = (loadLoop "races" 200 upStuck n 2
            (some (mergeInto "races" (some m) (upStuck 2)))).map
          (fun r => (r.1, r.2 + 1)) := rfl
    rw [step, ih]
    rfl

/-- Claim C8, counterexample: the loop does not terminate for every sequence
of upstream responses — against `upStuck`, which always reports
`total = 5` but echoes `offset = 1, limit = 1`, the requested offset stays
at 2 forever and no amount of fuel makes the loop finish. -/
theorem loader_termination_claim_cex :
    ¬ ∃ fuel : Nat,
      (load_year_collection (ι := Nat) "races" 200 upStuck fuel).isSome = true := by
  rintro ⟨fuel, h⟩
  cases fuel with
  | zero => exact Bool.noConfusion h
  | succ n =>
    have step : load_year_collection (ι := Nat) "races" 200 upStuck (n + 1)
        = (loadLoop "races" 200 upStuck n 2 (some (upStuck 0))).map
          (fun r => (r.1, r.2 + 1)) := rfl
    rw [step, loadLoop_upStuck_none n (upStuck 0)] at h
    exact Bool.noConfusion h

theorem loadLoop_echo_progress {ι : Type} (resource : String) (perPage T L : Nat)
    (up : Nat → MRData ι) (hL : 0 < L)
    (hup : ∀ o, (up o).total = T ∧ effOffset (up o) o = o ∧ effLimit (up o) perPage = L) :
    ∀ fuel start merged, T ≤ start + fuel →
      ∃ mm cnt, loadLoop resource perPage up (fuel + 1) start merged = some (mm, cnt)
        ∧ 1 ≤ cnt ∧ T ≤ start + cnt * L
        ∧ ∀ i, 1 ≤ i → i < cnt → ¬ T ≤ start + i * L := by
  intro fuel
  induction fuel with
  | zero =>
    intro start merged h
    obtain ⟨ht, ho, hl⟩ := hup start
    have hnext : nextOff (up start) start perPage = start + L := by
      unfold nextOff
      rw [ho, hl]
    have hcond : (up start).total ≤ nextOff (up start) start perPage
        ∨ (up start).total = 0 := by
      rw [ht, hnext]
      omega
    refine ⟨mergeInto resource merged (up start), 1, ?_, Nat.le_refl 1, by omega, ?_⟩
    · unfold loadLoop
      rw [if_pos hcond]
    · intro i h1 h2
      omega
  | succ n ih =>
    intro start merged h
    obtain ⟨ht, ho, hl⟩ := hup start
    have hnext : nextOff (up start) start perPage = start + L := by
      unfold nextOff
      rw [ho, hl]
    by_cases hstop : T ≤ start + L
    · have hcond : (up start).total ≤ nextOff (up start) start perPage
          ∨ (up start).total = 0 := by
        rw [ht, hnext]
        omega
      refine ⟨mergeInto resource merged (up start), 1, ?_, Nat.le_refl 1, by omega, ?_⟩
      · unfold loadLoop
        rw [if_pos hcond]
      · intro i h1 h2
        omega
    · have hcond : ¬ ((up start).total ≤ nextOff (up start) start perPage
          ∨ (up start).total = 0) := by
        rw [ht, hnext]
        omega
      obtain ⟨mm, cnt, hrec, hc1, hcle, hmin⟩ :=
        ih (start + L) (some (mergeInto resource merged (up start))) (by omega)
      refine ⟨mm, cnt + 1, ?_, by omega, ?_, ?_⟩
      · unfold loadLoop
        rw [if_neg hcond, hnext, hrec]
        rfl
      · have hmul : (cnt + 1) * L = cnt * L + L := Nat.succ_mul cnt L
        omega
      · intro i h1 h2
        rcases Nat.lt_or_ge i 2 with hi | hi
        · have hi1 : i = 1 := by omega
          subst hi1
          have : 1 * L = L := Nat.one_mul L
          omega
        · obtain ⟨j, rfl⟩ : ∃ j, i = j + 1 := ⟨i - 1, by omega⟩
          have hj := hmin j (by omega) (by omega)
          have hmul : (j + 1) * L = j * L + L := Nat.succ_mul j L
          omega

/-- Claim C8 (amended): the loop terminates whenever the upstream echoes
each requested offset together with a fixed positive effective limit and a
fixed total (as a well-behaved server does); it then fetches the least
number of pages `cnt` with `cnt * limit ≥ total`, i.e. it stops exactly when
the next offset reaches the reported total — one single page when the total
is 0. An upstream that mis-echoes offsets can keep the loop from ever
terminating. -/
theorem loader_terminates_on_echoing_upstream {ι : Type} (resource : String)
    (perPage T L : Nat) (up : Nat → MRData ι) (hL : 0 < L)
    (hup : ∀ o, (up o).total = T ∧ effOffset (up o) o = o ∧ effLimit (up o) perPage = L)
    (fuel : Nat) (hfuel : T < fuel) :
    ∃ m cnt, load_year_collection resource perPage up fuel = some (m, cnt)
      ∧ 1 ≤ cnt ∧ T ≤ cnt * L
      ∧ (∀ i, 1 ≤ i → i < cnt → ¬ T ≤ i * L)
      ∧ (T = 0 → cnt = 1) := by
  obtain ⟨k, rfl⟩ : ∃ k, fuel = k + 1 := ⟨fuel - 1, by omega⟩
  obtain ⟨mm, cnt, hload, h1, hle, hmin⟩ :=
    loadLoop_echo_progress resource perPage T L up hL hup k 0 none (by omega)
  refine ⟨mm, cnt, hload, h1, by simpa using hle,
    fun i hi1 hi2 => by simpa using hmin i hi1 hi2, ?_⟩
  intro hT0
  by_contra hc
  have h2 : 2 ≤ cnt := by omega
  have hm1 := hmin 1 (Nat.le_refl 1) (by omega)
  have : 0 + 1 * L = L := by omega
  omega

/-- Claim C8, witness for the amended statement: three items in pages of
two — the loop terminates with exactly two pages fetched. -/
theorem loader_terminates_witness :
    ∃ m cnt,
      load_year_collection (ι := Nat) "races" 2 (honestUp [1, 2, 3] 2) 4 = some (m, cnt)
      ∧ 1 ≤ cnt ∧ 3 ≤ cnt * 2
      ∧ (∀ i, 1 ≤ i → i < cnt → ¬ 3 ≤ i * 2)
      ∧ (3 = 0 → cnt = 1) :=
  loader_terminates_on_echoing_upstream "races" 2 3 2 (honestUp [1, 2, 3] 2)
    (by decide)
    (fun o => ⟨rfl, by simp [honestUp, effOffset], by simp [honestUp, effLimit]⟩)
    4 (by decide)

/-! ## Claim C6 -/

theorem cache_set_same {ι : Type} (cache : String → Option (CacheRec ι))
    (now : Nat) (key : String) (d : MRData ι) :
    cache_set cache now key d key = some ⟨now, d⟩ := by
  unfold cache_set
  rw [if_pos rfl]

/-- Claim C6: the loader's cache obeys the stated policy — a lookup whose
stored entry is within the TTL returns the entry's payload without touching
the upstream; one whose entry is older than the TTL is a miss that reloads
and overwrites the entry wholesale with the new payload and timestamp; and
after a miss-then-load, any second lookup within the TTL window returns the
identical payload with no upstream fetch, whatever upstream or fuel the
second call is given. -/
theorem cache_policy {ι : Type} (resource : String) (year perPage : Nat)
    (up : Nat → MRData ι) (fuel : Nat) (cache : String → Option (CacheRec ι))
    (now : Nat) :
    (∀ r, cache (cacheKey resource year perPage) = some r →
      now - r.ts ≤ CACHE_TTL →
      load_year_collection_cached resource year perPage up fuel cache now
        = (some r.data, cache, false))
    ∧ (∀ r m cnt, cache (cacheKey resource year perPage) = some r →
        CACHE_TTL < now - r.ts →
        loadLoop resource perPage up fuel 0 none = some (m, cnt) →
        load_year_collection_cached resource year perPage up fuel cache now
          = (some m, cache_set cache now (cacheKey resource year perPage) m, true))
    ∧ (∀ m cnt now', loadLoop resource perPage up fuel 0 none = some (m, cnt) →
        cache (cacheKey resource year perPage) = none →
        now' - now ≤ CACHE_TTL →
        ∀ (up' : Nat → MRData ι) (fuel' : Nat),
          load_year_collection_cached resource year perPage up' fuel'
              (load_year_collection_cached resource year perPage up fuel cache now).2.1
              now'
            = (some m,
               (load_year_collection_cached resource year perPage up fuel cache now).2.1,
               false)) := by
  refine ⟨?_, ?_, ?_⟩
  · intro r hr httl
    have hget : cache_get cache now (cacheKey resource year perPage) = some r.data := by
      simp only [cache_get, hr]
      rw [if_neg (by omega)]
    simp only [load_year_collection_cached, hget]
  · intro r m cnt hr httl hload
    have hget : cache_get cache now (cacheKey resource year perPage) = none := by
      simp only [cache_get, hr]
      rw [if_pos httl]
    simp only [load_year_collection_cached, hget, hload]
  · intro m cnt now' hload hnone httl up' fuel'
    have hget1 : cache_get cache now (cacheKey resource year perPage) = none := by
      simp only [cache_get, hnone]
    have hfirst : load_year_collection_cached resource year perPage up fuel cache now
        = (some m, cache_set cache now (cacheKey resource year perPage) m, true) := by
      simp only [load_year_collection_cached, hget1, hload]
    rw [hfirst]
    have hget2 : cache_get (cache_set cache now (cacheKey resource year perPage) m)
        now' (cacheKey resource year perPage) = some m := by
      simp only [cache_get, cache_set_same]
      rw [if_neg (by omega)]
    simp only [load_year_collection_cached, hget2]

/-- Claim C6, witness: an empty cache misses and loads a one-page payload at
time 0; a second lookup at time 100 (within the 300-second TTL) with a
different fuel returns the same payload with no upstream fetch and leaves
the cache unchanged. -/
theorem cache_policy_witness :
    load_year_collection_cached (ι := Nat) "results" 2025 1 (honestUp [5] 1) 3
        (load_year_collection_cached (ι := Nat) "results" 2025 1 (honestUp [5] 1) 2
          (fun _ => none) 0).2.1
        100
      = (some ⟨1, some 1, some 0, [5]⟩,
         (load_year_collection_cached (ι := Nat) "results" 2025 1 (honestUp [5] 1) 2
           (fun _ => none) 0).2.1,
         false) :=
  (cache_policy "results" 2025 1 (honestUp [5] 1) 2 (fun _ => none) 0).2.2
    ⟨1, some 1, some 0, [5]⟩ 1 100 rfl rfl (by decide) (honestUp [5] 1) 3

/-! ## Claim C7 -/

theorem gpItems_takeWhile (today : Nat) (bR : Nat → Option ResultRace) (did : List Nat) :
    ∀ races, gpItems today bR did races
      = gpItems today bR did (races.takeWhile (raceCompleted today)) := by
  intro races
  induction races with
  | nil => rfl
  | cons r rest ih =>
    cases hd : r.date with
    | none =>
      have hrc : raceCompleted today r = false := by
        simp [raceCompleted, hd]
      rw [List.takeWhile_cons_of_neg (by simp [hrc])]
      simp [gpItems, hd]
    | some d =>
      by_cases hle : d ≤ today
      · have hrc : raceCompleted today r = true := by
          simp [raceCompleted, hd, hle]
        rw [List.takeWhile_cons_of_pos (by simp [hrc])]
        simp only [gpItems, hd]
        rw [if_neg (by omega), if_neg (by omega), ih]
      · have hrc : raceCompleted today r = false := by
          simp [raceCompleted, hd]
          omega
        rw [List.takeWhile_cons_of_neg (by simp [hrc])]
        simp only [gpItems, hd]
        rw [if_pos (by omega)]

theorem gpItems_dates (today : Nat) (bR : Nat → Option ResultRace) (did : List Nat) :
    ∀ races, ∀ it ∈ gpItems today bR did races, it.date ≤ today := by
  intro races
  induction races with
  | nil => intro it h; exact absurd h (List.not_mem_nil it)
  | cons r rest ih =>
    intro it hit
    rcases hd : r.date with _ | d
    · simp only [gpItems, hd] at hit
      exact absurd hit (List.not_mem_nil it)
    · simp only [gpItems, hd] at hit
      by_cases hlt : today < d
      · rw [if_pos hlt] at hit
        exact absurd hit (List.not_mem_nil it)
      · rw [if_neg hlt] at hit
        rcases hbr : bR r.round with _ | rr
        · simp only [hbr] at hit
          exact ih it hit
        · simp only [hbr] at hit
          rcases hf : rr.results.find? (fun res => pyLower res.driverId == pyLower did)
            with _ | found
          · simp only [hf] at hit
            exact ih it hit
          · simp only [hf] at hit
            rcases List.mem_cons.mp hit with h | h
            · subst h
              simpa using Nat.le_of_not_lt hlt
            · exact ih it h

/-- Claim C7: the completed-results join and every statistic derived from it
only see races whose date is at most the current date — the join's output
over the full calendar equals its output over the prefix of races dated up
to today (it stops at the first race with a future or missing date), every
collected item is dated at most today, and the derived driver statistics
over the full calendar coincide with those over that prefix, so a
future-dated race contributes to no count. -/
theorem stats_only_completed_races (today : Nat) (races : List CalRace)
    (resultRaces : List ResultRace) (did : List Nat) :
    gp_results_for_driver_completed today races resultRaces did
        = gp_results_for_driver_completed today (races.takeWhile (raceCompleted today))
            resultRaces did
    ∧ (∀ it ∈ gp_results_for_driver_completed today races resultRaces did,
        it.date ≤ today)
    ∧ driverStatsOf (gp_results_for_driver_completed today races resultRaces did)
        = driverStatsOf (gp_results_for_driver_completed today
            (races.takeWhile (raceCompleted today)) resultRaces did) := by
  refine ⟨?_, ?_, ?_⟩
  · exact gpItems_takeWhile today (byRound resultRaces) did races
  · exact gpItems_dates today (byRound resultRaces) did races
  · exact congrArg driverStatsOf (gpItems_takeWhile today (byRound resultRaces) did races)

end F1
